import Mathlib

/-!
Shallow embedding of the command handlers registered in
`src/client/client.ts` of the vscode-q extension, together with a model of
the connection-manager state they manipulate.  Pure decision logic of each
handler is translated into a Lean function on an explicit state; the
effects a handler performs (notifications sent, UI updates, configuration
removals) are reified as values so that ordering and occurrence can be
reasoned about.
-/

namespace VscodeQ

/-- The query modes of the connection manager: `queryMode` ranges over
`{Console, Grid, Virtualization}` (glossary of the design document). -/
inductive QueryMode where
  | Console : QueryMode
  | Grid : QueryMode
  | Virtualization : QueryMode
deriving DecidableEq, Repr

/-- State of the `QConnManager` singleton as far as the visible handlers
touch it: the unique label of the active connection (if any), the current
query mode, and the limit-query flag. -/
structure QConnManagerState where
  activeConnLabel : Option String
  queryMode : QueryMode
  limitQueryEnabled : Bool
deriving DecidableEq, Repr

/-- A history record handed to the `q-history.rerun` command: the unique
label of the endpoint the query ran against, and the query text. -/
structure HistoryRecord where
  uniqLabel : String
  query : String
deriving DecidableEq, Repr

/-- An action the `q-history.rerun` handler delegates to on the connection
manager: `sync query` (run on the active connection) or
`connect uniqLabel query?` (reconnect to the endpoint, then run). -/
inductive ManagerAction where
  | sync : String → ManagerAction
  | connect : String → Option String → ManagerAction
deriving DecidableEq, Repr

/-- The `q-history.rerun` handler, `client.ts` lines 244-251:
`if (QConnManager.current?.activeConn?.uniqLabel === history.uniqLabel)
QConnManager.current?.sync(history.query); else
QConnManager.current?.connect(history.uniqLabel, history.query)`.
`current` is the optional manager singleton; when it is absent the optional
chaining makes both branches no-ops. -/
def rerunHandler (current : Option QConnManagerState) (history : HistoryRecord) :
    Option ManagerAction :=
  if current.bind QConnManagerState.activeConnLabel = some history.uniqLabel then
    current.map fun _ => ManagerAction.sync history.query
  else
    current.map fun _ => ManagerAction.connect history.uniqLabel (some history.query)

/-- Modelled from the spec: `QConnManager.setQueryMode` lives in
`src/modules/q-conn-manager.ts`, which is not part of the visible source
(only its call sites in `client.ts` are).  Spec 4.1: "`setQueryMode(mode)`:
validates `mode` against the enumerated set; fails silently (no-op) on
unrecognized value".  This parses the mode string against the enumerated
set. -/
def parseQueryMode : String → Option QueryMode
  | "Console" => some QueryMode.Console
  | "Grid" => some QueryMode.Grid
  | "Virtualization" => some QueryMode.Virtualization
  | _ => none

/-- Modelled from the spec: `setQueryMode(mode)` on the manager state.  A
recognized mode string updates `queryMode`; an unrecognized one leaves the
state unchanged (silent no-op).  The function is total, so no input — in
particular the arbitrary persisted configuration string passed at startup,
`client.ts` lines 100-101 — can make it throw. -/
def setQueryMode (st : QConnManagerState) (mode : String) : QConnManagerState :=
  match parseQueryMode mode with
  | some m => { st with queryMode := m }
  | none => st

/-- Modelled from the spec: `QConnManager.toggleLimitQuery` lives in
`src/modules/q-conn-manager.ts`, which is not part of the visible source
(only its call site, `client.ts` lines 196-200, is).  Spec 4.1:
"`toggleLimitQuery()`: flips `limitQueryEnabled`; pure, no I/O." -/
def toggleLimitQuery (st : QConnManagerState) : QConnManagerState :=
  { st with limitQueryEnabled := !st.limitQueryEnabled }

/-- The decision core of the `q-client.deleteEntry` handler, `client.ts`
lines 121-132: the input-box result is compared with the literal `'Y'`
(`value === 'Y'`) and only on equality is `removeCfg(qConn.uniqLabel)`
invoked.  The result is `some label` when `removeCfg` is invoked with
`label`, `none` when nothing is removed; `value = none` models a cancelled
prompt (`undefined`). -/
def deleteEntryHandler (uniqLabel : String) (value : Option String) : Option String :=
  if value = some "Y" then some uniqLabel else none

/-- A configuration-change event as the handler at `client.ts` lines
318-325 interrogates it: the three `affectsConfiguration` queries it makes,
for the sections `'q-client'`, `'q-client.term'` and `'q-server'`. -/
structure ConfigChangeEvent where
  affectsQClient : Bool
  affectsQClientTerm : Bool
  affectsQServer : Bool
deriving DecidableEq, Repr

/-- The `'q-server.sourceFiles'` configuration section: `cfg.get` for
`'globsPattern'` and `'ignorePattern'` may each be absent (`undefined`),
modelled by `Option`. -/
structure SourceFilesConfig where
  globsPattern : Option String
  ignorePattern : Option String
deriving DecidableEq, Repr

/-- Payload of a notification sent over the language-client transport:
either an object of named fields (such as the scope-change payload
`\x7bglobsPattern, ignorePattern\x7d`) or a raw string value (the server
cache code). -/
inductive Payload where
  | object : List (String × Option String) → Payload
  | rawString : String → Payload
deriving DecidableEq, Repr

/-- The scope-change payload built at `client.ts` lines 323 and 375:
`\x7b globsPattern: cfg.get('globsPattern'), ignorePattern:
cfg.get('ignorePattern') \x7d`. -/
def scopePayload (cfg : SourceFilesConfig) : Payload :=
  Payload.object [("globsPattern", cfg.globsPattern), ("ignorePattern", cfg.ignorePattern)]

/-- An observable effect of the configuration-change handler: either the
information message shown to the user, or a notification (method name and
payload) sent to the language server. -/
inductive ConfigHandlerEffect where
  | showInformationMessage : String → ConfigHandlerEffect
  | sendNotification : String → Payload → ConfigHandlerEffect
deriving DecidableEq, Repr

/-- The `workspace.onDidChangeConfiguration` handler, `client.ts` lines
318-325: `if (e.affectsConfiguration('q-client') &&
!e.affectsConfiguration('q-client.term'))` show the reload message,
`else if (e.affectsConfiguration('q-server'))` send the
`'$/analyze-source-code'` notification with the patterns read from
`'q-server.sourceFiles'`. -/
def onDidChangeConfigurationHandler (e : ConfigChangeEvent) (cfg : SourceFilesConfig) :
    List ConfigHandlerEffect :=
  if e.affectsQClient && !e.affectsQClientTerm then
    [ConfigHandlerEffect.showInformationMessage
      "Reload/Restart vscode to Making the Configuration Take Effect."]
  else if e.affectsQServer then
    [ConfigHandlerEffect.sendNotification "$/analyze-source-code" (scopePayload cfg)]
  else
    []

/-- The notifications among a list of handler effects, in order. -/
def notificationsSent (effects : List ConfigHandlerEffect) : List (String × Payload) :=
  effects.filterMap fun eff =>
    match eff with
    | ConfigHandlerEffect.showInformationMessage _ => none
    | ConfigHandlerEffect.sendNotification m p => some (m, p)

/-- The `client.onReady().then` continuation, `client.ts` lines 373-376:
reads `'q-server.sourceFiles'` and sends a single
`'$/analyze-source-code'` notification. -/
def onReadyHandler (cfg : SourceFilesConfig) : List (String × Payload) :=
  [("$/analyze-source-code", scopePayload cfg)]

/-- The `q-client.sendServerCache` handler, `client.ts` lines 367-371:
forwards its `code` argument unchanged as the payload of a single
`'$/analyze-server-cache'` notification. -/
def sendServerCacheHandler (code : Payload) : List (String × Payload) :=
  [("$/analyze-server-cache", code)]

/-- Every notification the visible code ever sends to the language server:
the configuration-change handler, the `q-client.sendServerCache` handler
and the `onReady` continuation are the only three `sendNotification` call
sites in `client.ts`. -/
def allSentNotifications (e : ConfigChangeEvent) (cfg : SourceFilesConfig)
    (code : Payload) : List (String × Payload) :=
  notificationsSent (onDidChangeConfigurationHandler e cfg) ++
    sendServerCacheHandler code ++ onReadyHandler cfg

/-- An event of the `q-client.switchMode` handler, in the order the handler
performs them: the information message, the `QConnManager.setQueryMode`
state transition, and the `QStatusBarManager.updateQueryModeStatus` UI
notification. -/
inductive SwitchModeEvent where
  | showInformationMessage : String → SwitchModeEvent
  | setQueryMode : String → SwitchModeEvent
  | updateQueryModeStatus : SwitchModeEvent
deriving DecidableEq, Repr

/-- The `q-client.switchMode` handler, `client.ts` lines 184-194: awaits a
quick pick (`none` models `undefined`, i.e. the user dismissed it); `if
(mode)` guards the body, so an empty string (falsy in JavaScript) also
skips it; otherwise it shows the message, calls
`QConnManager.setQueryMode(mode)`, then
`QStatusBarManager.updateQueryModeStatus()`. -/
def switchModeHandler (picked : Option String) : List SwitchModeEvent :=
  match picked with
  | none => []
  | some mode =>
    if mode = "" then []
    else
      [SwitchModeEvent.showInformationMessage ("Switch to Query " ++ mode ++ " Mode"),
        SwitchModeEvent.setQueryMode mode,
        SwitchModeEvent.updateQueryModeStatus]

/-- A formatting edit produced by the `q` document formatter: insertion of
`newText` at position (`line`, `character`).  The source only ever builds
`TextEdit.insert(line.range.start, ' ')`, i.e. `character = 0`,
`newText = " "`. -/
structure TextEditInsert where
  line : Nat
  character : Nat
  newText : String
deriving DecidableEq, Repr

/-- `TextLine.isEmptyOrWhitespace` of the editor API: the line text is
empty or consists only of whitespace (space or tab) characters. -/
def isEmptyOrWhitespace (s : String) : Bool :=
  s.data.all fun c => c == ' ' || c == '\t'

/-- `line.text.match('^[)\\]}]')` of `client.ts` line 72: the line text
begins with one of the characters `)`, `]`, `\x7d`. -/
def startsWithCloser (s : String) : Bool :=
  match s.data with
  | [] => false
  | c :: _ => c == ')' || c == ']' || c == '\x7d'

/-- The loop body of `provideDocumentFormattingEdits`, `client.ts` lines
64-77, over the document's lines with their indices: skip a line that
`isEmptyOrWhitespace`; push `TextEdit.insert(line.range.start, ' ')` when
the line text matches `'^[)\\]}]'`. -/
def formatEditsAux : Nat → List String → List TextEditInsert
  | _, [] => []
  | i, line :: rest =>
    if isEmptyOrWhitespace line then formatEditsAux (i + 1) rest
    else if startsWithCloser line then
      TextEditInsert.mk i 0 " " :: formatEditsAux (i + 1) rest
    else
      formatEditsAux (i + 1) rest

/-- `provideDocumentFormattingEdits` of `client.ts` lines 64-77, with the
document given as its list of line texts. -/
def provideDocumentFormattingEdits (doc : List String) : List TextEditInsert :=
  formatEditsAux 0 doc

/-- The line condition in the words of the claim: the line is non-empty,
not whitespace-only, and its text begins with `)`, `]` or `\x7d`. -/
def claimLineCondition (l : String) : Bool :=
  !(l == "") && !(isEmptyOrWhitespace l) && startsWithCloser l

/-- The edit list in the words of the claim: exactly one insertion of a
single space at the start of every line satisfying `claimLineCondition`,
and no edit for any other line. -/
def claimFormatEditsAux : Nat → List String → List TextEditInsert
  | _, [] => []
  | i, l :: rest =>
    if claimLineCondition l then
      TextEditInsert.mk i 0 " " :: claimFormatEditsAux (i + 1) rest
    else
      claimFormatEditsAux (i + 1) rest

/-- The claim-side edit list over a whole document. -/
def claimFormatEdits (doc : List String) : List TextEditInsert :=
  claimFormatEditsAux 0 doc

/-- The replacement `query.replace(/(\r\n|\n|\r)/gm, '')` of `client.ts`
line 294, as the regex engine performs it: scan left to right, deleting a
`\r\n` pair, a lone `\n`, or a lone `\r`, and keeping every other
character. -/
def stripLineBreaks : List Char → List Char
  | [] => []
  | '\r' :: '\n' :: rest => stripLineBreaks rest
  | '\n' :: rest => stripLineBreaks rest
  | '\r' :: rest => stripLineBreaks rest
  | c :: rest => c :: stripLineBreaks rest

/-- The `q-term.sendSelection` handler, `client.ts` lines 288-297:
`selection = none` models the absence of an active editor (`getText` on
`undefined`), `some ""` an empty selection; `if (query)` rejects both, and
otherwise `sendToCurrentTerm` receives the selection with the line-break
replacement applied.  The result is the string handed to
`sendToCurrentTerm`, or `none` when nothing is sent. -/
def sendSelectionHandler (selection : Option String) : Option String :=
  match selection with
  | none => none
  | some q => if q = "" then none else some (String.mk (stripLineBreaks q.data))

theorem startsWithCloser_not_ws (s : String) (h : startsWithCloser s = true) :
    isEmptyOrWhitespace s = false := by
  unfold startsWithCloser at h
  unfold isEmptyOrWhitespace
  cases hd : s.data with
  | nil => rw [hd] at h; simp at h
  | cons c cs =>
    rw [hd] at h
    simp only [Bool.or_eq_true, beq_iff_eq] at h
    rw [List.all_cons]
    have hcw : (c == ' ' || c == '\t') = false := by
      rcases h with (h | h) | h <;> rw [h] <;> decide
    rw [hcw, Bool.false_and]

theorem startsWithCloser_ne_empty (s : String) (h : startsWithCloser s = true) :
    (s == "") = false := by
  by_cases he : s = ""
  · subst he
    exact absurd h (by decide)
  · simp [he]

theorem formatEditsAux_eq_claim (doc : List String) :
    ∀ i, formatEditsAux i doc = claimFormatEditsAux i doc := by
  induction doc with
  | nil => intro i; rfl
  | cons l rest ih =>
    intro i
    unfold formatEditsAux claimFormatEditsAux
    by_cases hw : isEmptyOrWhitespace l = true
    · have hc : claimLineCondition l = false := by
        unfold claimLineCondition
        by_cases hs : startsWithCloser l = true
        · rw [startsWithCloser_not_ws l hs] at hw
          exact absurd hw (by simp)
        · simp [Bool.eq_false_iff.mpr hs]
      simp [hw, hc, ih]
    · by_cases hs : startsWithCloser l = true
      · have hc : claimLineCondition l = true := by
          unfold claimLineCondition
          simp [startsWithCloser_ne_empty l hs, hw, hs]
        simp [hw, hs, hc, ih]
      · have hc : claimLineCondition l = false := by
          unfold claimLineCondition
          simp [Bool.eq_false_iff.mpr hs]
        simp [hw, hs, hc, ih]

theorem stripLineBreaks_eq_filter (l : List Char) :
    stripLineBreaks l = l.filter fun c => !(c == '\r' || c == '\n') := by
  induction l using stripLineBreaks.induct <;>
    simp_all [stripLineBreaks, List.filter_cons]

/-- Claim C1: for every history record, the `q-history.rerun` handler
compares the record's `uniqLabel` with the active connection's `uniqLabel`:
if they are equal it delegates to `sync(record.query)`, otherwise to
`connect(record.uniqLabel, record.query)`. -/
theorem rerun_dispatches_on_uniqLabel (m : QConnManagerState) (h : HistoryRecord) :
    rerunHandler (some m) h =
      if m.activeConnLabel = some h.uniqLabel then
        some (ManagerAction.sync h.query)
      else
        some (ManagerAction.connect h.uniqLabel (some h.query)) := by
  unfold rerunHandler
  by_cases hc : m.activeConnLabel = some h.uniqLabel <;>
    simp [Option.bind, hc]

/-- Claim C4: `setQueryMode(mode)` validates `mode` against
`{Console, Grid, Virtualization}` and is a silent no-op (state unchanged,
no error — the function is total) when `mode` is not in that set. -/
theorem setQueryMode_noop_on_unrecognized (st : QConnManagerState) (mode : String)
    (h : mode ∉ ["Console", "Grid", "Virtualization"]) :
    setQueryMode st mode = st := by
  have hp : parseQueryMode mode = none := by
    unfold parseQueryMode
    split
    · exact absurd (by simp) h
    · exact absurd (by simp) h
    · exact absurd (by simp) h
    · rfl
  simp [setQueryMode, hp]

/-- Witness for C4 at the unrecognized mode string `"console"` (wrong
case) and a concrete state. -/
theorem setQueryMode_noop_witness :
    setQueryMode ⟨none, QueryMode.Console, false⟩ "console" =
      ⟨none, QueryMode.Console, false⟩ :=
  setQueryMode_noop_on_unrecognized ⟨none, QueryMode.Console, false⟩ "console" (by decide)

/-- Claim C5: double-toggle of `limitQueryEnabled` is the identity on the
manager state, and a single `toggleLimitQuery` flips `limitQueryEnabled`
while leaving every other component of the state unchanged (it is a pure
state update, no I/O). -/
theorem toggleLimitQuery_involutive (st : QConnManagerState) :
    toggleLimitQuery (toggleLimitQuery st) = st ∧
    (toggleLimitQuery st).limitQueryEnabled = !st.limitQueryEnabled ∧
    (toggleLimitQuery st).activeConnLabel = st.activeConnLabel ∧
    (toggleLimitQuery st).queryMode = st.queryMode := by
  refine ⟨?_, rfl, rfl, rfl⟩
  simp [toggleLimitQuery]

/-- Claim C8: `removeCfg` is invoked iff the confirmation input box returns
the exact string `"Y"`; for `"y"`, `"n"`, `"yes"`, the empty string and a
cancelled prompt the configuration set is untouched. -/
theorem deleteEntry_requires_exact_Y (l : String) (v : Option String) :
    ((deleteEntryHandler l v).isSome = true ↔ v = some "Y") ∧
    deleteEntryHandler l (some "Y") = some l ∧
    deleteEntryHandler l (some "y") = none ∧
    deleteEntryHandler l (some "n") = none ∧
    deleteEntryHandler l (some "yes") = none ∧
    deleteEntryHandler l (some "") = none ∧
    deleteEntryHandler l none = none := by
  refine ⟨?_, by simp [deleteEntryHandler], by simp [deleteEntryHandler],
    by simp [deleteEntryHandler], by simp [deleteEntryHandler],
    by simp [deleteEntryHandler], by simp [deleteEntryHandler]⟩
  unfold deleteEntryHandler
  by_cases hv : v = some "Y" <;> simp [hv]

/-- Claim C2 counterexample: a configuration-change event that affects
`'q-server'` but also affects `'q-client'` (and not `'q-client.term'`)
takes the first branch of the handler — the reload message — and sends no
notification at all, contradicting the claim that every event affecting
`'q-server'` triggers the scope-change notification. -/
theorem configChange_qserver_not_always_notified :
    (ConfigChangeEvent.mk true false true).affectsQServer = true ∧
    notificationsSent
      (onDidChangeConfigurationHandler (ConfigChangeEvent.mk true false true)
        (SourceFilesConfig.mk (some "**/*.q") none)) = [] := by
  constructor
  · rfl
  · rfl

/-- Claim C2 (amended): for every configuration-change event that affects
`'q-server'` and does not take the reload branch (i.e. does not affect
`'q-client'` without affecting `'q-client.term'`), the handler sends
exactly the `'$/analyze-source-code'` notification with `globsPattern` and
`ignorePattern` read from `'q-server.sourceFiles'`. -/
theorem configChange_qserver_notifies (e : ConfigChangeEvent) (cfg : SourceFilesConfig)
    (h1 : e.affectsQServer = true)
    (h2 : ¬(e.affectsQClient = true ∧ e.affectsQClientTerm = false)) :
    onDidChangeConfigurationHandler e cfg =
      [ConfigHandlerEffect.sendNotification "$/analyze-source-code" (scopePayload cfg)] := by
  unfold onDidChangeConfigurationHandler
  have hb : (e.affectsQClient && !e.affectsQClientTerm) = false := by
    cases hc : e.affectsQClient <;> cases ht : e.affectsQClientTerm <;>
      simp_all
  simp [hb, h1]

/-- Witness for the amended C2 at an event affecting only `'q-server'` and
a concrete configuration. -/
theorem configChange_qserver_notifies_witness :
    onDidChangeConfigurationHandler (ConfigChangeEvent.mk false false true)
      (SourceFilesConfig.mk (some "**/*.q") (some "**/tmp/**")) =
      [ConfigHandlerEffect.sendNotification "$/analyze-source-code"
        (scopePayload (SourceFilesConfig.mk (some "**/*.q") (some "**/tmp/**")))] :=
  configChange_qserver_notifies (ConfigChangeEvent.mk false false true)
    (SourceFilesConfig.mk (some "**/*.q") (some "**/tmp/**")) rfl (by simp)

/-- Claim C3: on startup, once the language client signals ready, the
`onReady` continuation sends exactly one notification, and it is the
`'$/analyze-source-code'` scope-change notification carrying the
`globsPattern` and `ignorePattern` from `'q-server.sourceFiles'`. -/
theorem onReady_sends_one_scope_notification (cfg : SourceFilesConfig) :
    (onReadyHandler cfg).length = 1 ∧
    onReadyHandler cfg = [("$/analyze-source-code", scopePayload cfg)] :=
  ⟨rfl, rfl⟩

/-- Claim C6: every notification the client code sends to the analyzer is
either `'$/analyze-source-code'` with an object payload of exactly the
fields `globsPattern` and `ignorePattern`, or `'$/analyze-server-cache'`
carrying the raw code payload unchanged; no other method name or payload
shape ever occurs, across all three send sites. -/
theorem notifications_are_scope_or_cache (e : ConfigChangeEvent)
    (cfg : SourceFilesConfig) (code : Payload) (msg : String × Payload)
    (h : msg ∈ allSentNotifications e cfg code) :
    (msg.1 = "$/analyze-source-code" ∧
      ∃ g ig, msg.2 = Payload.object [("globsPattern", g), ("ignorePattern", ig)]) ∨
    (msg.1 = "$/analyze-server-cache" ∧ msg.2 = code) := by
  have hshape : notificationsSent (onDidChangeConfigurationHandler e cfg) = [] ∨
      notificationsSent (onDidChangeConfigurationHandler e cfg) =
        [("$/analyze-source-code", scopePayload cfg)] := by
    unfold onDidChangeConfigurationHandler
    split
    · left
      rfl
    · split
      · right
        rfl
      · left
        rfl
  unfold allSentNotifications at h
  rcases List.mem_append.mp h with h1 | h2
  · rcases List.mem_append.mp h1 with h3 | h4
    · rcases hshape with hs | hs <;> rw [hs] at h3
      · simp at h3
      · left
        simp at h3
        subst h3
        exact ⟨rfl, cfg.globsPattern, cfg.ignorePattern, rfl⟩
    · right
      simp [sendServerCacheHandler] at h4
      subst h4
      exact ⟨rfl, rfl⟩
  · left
    simp [onReadyHandler] at h2
    subst h2
    exact ⟨rfl, cfg.globsPattern, cfg.ignorePattern, rfl⟩

/-- Witness for C6: the cache notification produced by
`q-client.sendServerCache` at a concrete code payload is of one of the two
allowed kinds. -/
theorem notifications_are_scope_or_cache_witness :
    (("$/analyze-server-cache", Payload.rawString ".z.f") ∈
      allSentNotifications (ConfigChangeEvent.mk false false false)
        (SourceFilesConfig.mk none none) (Payload.rawString ".z.f")) ∧
    (((("$/analyze-server-cache", Payload.rawString ".z.f") :
        String × Payload).1 = "$/analyze-source-code" ∧
      ∃ g ig, (("$/analyze-server-cache", Payload.rawString ".z.f") :
        String × Payload).2 =
          Payload.object [("globsPattern", g), ("ignorePattern", ig)]) ∨
    ((("$/analyze-server-cache", Payload.rawString ".z.f") :
        String × Payload).1 = "$/analyze-server-cache" ∧
      (("$/analyze-server-cache", Payload.rawString ".z.f") :
        String × Payload).2 = Payload.rawString ".z.f")) :=
  ⟨by decide,
    notifications_are_scope_or_cache (ConfigChangeEvent.mk false false false)
      (SourceFilesConfig.mk none none) (Payload.rawString ".z.f")
      ("$/analyze-server-cache", Payload.rawString ".z.f") (by decide)⟩

/-- Claim C7: in the `q-client.switchMode` handler, the
`updateQueryModeStatus` UI notification occurs only when the user actually
picked a (truthy) mode, and only at a position strictly after the
`setQueryMode` state transition for that mode. -/
theorem switchMode_status_after_setQueryMode (picked : Option String) (j : Nat)
    (h : (switchModeHandler picked).get? j = some SwitchModeEvent.updateQueryModeStatus) :
    ∃ mode, picked = some mode ∧ mode ≠ "" ∧
      ∃ i, i < j ∧
        (switchModeHandler picked).get? i = some (SwitchModeEvent.setQueryMode mode) := by
  match picked with
  | none => simp [switchModeHandler] at h
  | some mode =>
    by_cases hm : mode = ""
    · simp [switchModeHandler, hm] at h
    · refine ⟨mode, rfl, hm, 1, ?_, ?_⟩
      · match j with
        | 0 => simp [switchModeHandler, hm] at h
        | 1 => simp [switchModeHandler, hm] at h
        | n + 2 => omega
      · simp [switchModeHandler, hm]

/-- Witness for C7 at the picked mode `"Grid"`: `updateQueryModeStatus`
sits at index 2, after `setQueryMode "Grid"`. -/
theorem switchMode_status_after_setQueryMode_witness :
    ∃ mode, some "Grid" = some mode ∧ mode ≠ "" ∧
      ∃ i, i < 2 ∧
        (switchModeHandler (some "Grid")).get? i =
          some (SwitchModeEvent.setQueryMode mode) :=
  switchMode_status_after_setQueryMode (some "Grid") 2 (by decide)

/-- Claim C9: the `q` document formatter returns exactly one edit — the
insertion of a single space at the line start — for every line that is
non-empty, not whitespace-only and whose text begins with `)`, `]` or
`\x7d`, and no edit for any other line; a document with no such line yields
the empty edit list.  Stated as equality of the source formatter with the
edit list written from the claim's words. -/
theorem formatter_edits_exactly_closer_lines (doc : List String) :
    provideDocumentFormattingEdits doc = claimFormatEdits doc := by
  unfold provideDocumentFormattingEdits claimFormatEdits
  exact formatEditsAux_eq_claim doc 0

/-- Claim C10: the `q-term.sendSelection` handler sends nothing when there
is no active editor or the selection is empty, and otherwise hands
`sendToCurrentTerm` the selected text with every carriage return and line
feed removed; whatever string is sent contains no line-break character. -/
theorem sendSelection_strips_line_breaks (sel : Option String) :
    sendSelectionHandler sel =
      (match sel with
       | none => none
       | some q =>
         if q = "" then none
         else some (String.mk (q.data.filter fun c => !(c == '\r' || c == '\n')))) ∧
    ∀ s, sendSelectionHandler sel = some s → '\r' ∉ s.data ∧ '\n' ∉ s.data := by
  constructor
  · match sel with
    | none => rfl
    | some q =>
      by_cases hq : q = ""
      · simp [sendSelectionHandler, hq]
      · simp [sendSelectionHandler, hq, stripLineBreaks_eq_filter]
  · intro s hs
    match sel with
    | none => exact absurd hs (by simp [sendSelectionHandler])
    | some q =>
      by_cases hq : q = ""
      · exact absurd hs (by simp [sendSelectionHandler, hq])
      · simp [sendSelectionHandler, hq, stripLineBreaks_eq_filter] at hs
        subst hs
        constructor
        · intro hmem
          rcases List.mem_filter.mp hmem with ⟨_, hp⟩
          simp at hp
        · intro hmem
          rcases List.mem_filter.mp hmem with ⟨_, hp⟩
          simp at hp

/-- Witness for C10 at the selection `"a\r\nb"`: the handler sends `"ab"`,
which contains neither a carriage return nor a line feed. -/
theorem sendSelection_strips_witness :
    ('\r' ∉ ("ab" : String).data ∧ '\n' ∉ ("ab" : String).data) ∧
    sendSelectionHandler (some "a\r\nb") = some "ab" :=
  ⟨(sendSelection_strips_line_breaks (some "a\r\nb")).2 "ab" (by decide), by decide⟩

end VscodeQ
